import Mathlib

/-!
Verification of the ulogrs ULog decoder (src/lib.rs), a nom-based parser
for the PX4 ULog binary flight-log format.

The embedding below mirrors the Rust source function by function:
byte buffers are lists of `Fin 256`, the nom `IResult` becomes `PResult`
(success carries the remaining buffer and the value; nom `Err::Error`
becomes `.err`), and a Rust panic (the `String::from_utf8(..).unwrap()`
calls) becomes the distinguished outcome `.panicked`, which propagates
through every combinator and is never caught, exactly as an unwinding
panic escapes the nom combinators. Rust `u16` subtraction on the
`msg_size - k` length computations is modelled as wrapping arithmetic
(`u16sub`), the release-profile semantics of the `-` operator used in
the source. Decoded `String` fields are kept as their UTF-8 byte lists;
 the validity check `validUtf8` models `String::from_utf8` succeeding.
-/

namespace Ulogrs

abbrev Byte := Fin 256

/-- Result of a nom-style parser over a byte list: success with the
remaining input and a value, a recoverable parse error, or a Rust panic. -/
inductive PResult (α : Type) where
  | ok : List Byte → α → PResult α
  | err : PResult α
  | panicked : PResult α
deriving DecidableEq

/-- Sequencing of parsers, as the `?` operator threads `IResult` in the
source; errors and panics propagate. -/
def pbind {α β : Type} (r : PResult α) (f : List Byte → α → PResult β) : PResult β :=
  match r with
  | .ok rest a => f rest a
  | .err => .err
  | .panicked => .panicked

/-- nom `alt` between two branches: the second runs only when the first
returns a recoverable error; a panic is not caught. -/
def palt {α : Type} (r : PResult α) (f : Unit → PResult α) : PResult α :=
  match r with
  | .err => f ()
  | r => r

def isOk {α : Type} : PResult α → Bool
  | .ok _ _ => true
  | _ => false

/-- nom `bytes::complete::tag`: match a literal byte sequence. -/
def tagBytes (t : List Byte) (input : List Byte) : PResult (List Byte) :=
  if List.take t.length input = t then .ok (List.drop t.length input) t else .err

/-- nom `number::complete::u8`: read one byte. -/
def u8 (input : List Byte) : PResult Byte :=
  match input with
  | b :: rest => .ok rest b
  | [] => .err

/-- nom `number::complete::le_u16`: read a 2-byte little-endian integer. -/
def le_u16 (input : List Byte) : PResult Nat :=
  match input with
  | b0 :: b1 :: rest => .ok rest (b0.val + 256 * b1.val)
  | _ => .err

/-- nom `number::complete::le_u64`: read an 8-byte little-endian integer. -/
def le_u64 (input : List Byte) : PResult Nat :=
  match input with
  | b0 :: b1 :: b2 :: b3 :: b4 :: b5 :: b6 :: b7 :: rest =>
      .ok rest (b0.val + 256 * (b1.val + 256 * (b2.val + 256 * (b3.val +
        256 * (b4.val + 256 * (b5.val + 256 * (b6.val + 256 * b7.val)))))))
  | _ => .err

/-- nom `bytes::complete::take`: split off exactly `n` bytes, failing when
fewer remain. -/
def take (n : Nat) (input : List Byte) : PResult (List Byte) :=
  if n ≤ input.length then .ok (List.drop n input) (List.take n input) else .err

/-- Wrapping `u16` subtraction, the release-profile semantics of the
`msg_size - k` expressions in the source (arguments are below 65536 at
every use site). Irreducible so that unification does not unfold the
65536 literal; proofs go through `u16sub_of_le` or `unfold`. -/
@[irreducible] def u16sub (a b : Nat) : Nat := (a + 65536 - b) % 65536

/-- Does a byte list decode as UTF-8? Models `String::from_utf8`
succeeding on the corresponding `Vec<u8>`. -/
def validUtf8 : List Byte → Bool
  | [] => true
  | b :: rest =>
    if b.val ≤ 0x7F then validUtf8 rest
    else if 0xC2 ≤ b.val ∧ b.val ≤ 0xDF then
      match rest with
      | c :: rest2 => decide (0x80 ≤ c.val ∧ c.val ≤ 0xBF) && validUtf8 rest2
      | [] => false
    else if b.val = 0xE0 then
      match rest with
      | c :: d :: rest2 =>
          decide (0xA0 ≤ c.val ∧ c.val ≤ 0xBF) &&
          decide (0x80 ≤ d.val ∧ d.val ≤ 0xBF) && validUtf8 rest2
      | _ => false
    else if (0xE1 ≤ b.val ∧ b.val ≤ 0xEC) ∨ (0xEE ≤ b.val ∧ b.val ≤ 0xEF) then
      match rest with
      | c :: d :: rest2 =>
          decide (0x80 ≤ c.val ∧ c.val ≤ 0xBF) &&
          decide (0x80 ≤ d.val ∧ d.val ≤ 0xBF) && validUtf8 rest2
      | _ => false
    else if b.val = 0xED then
      match rest with
      | c :: d :: rest2 =>
          decide (0x80 ≤ c.val ∧ c.val ≤ 0x9F) &&
          decide (0x80 ≤ d.val ∧ d.val ≤ 0xBF) && validUtf8 rest2
      | _ => false
    else if b.val = 0xF0 then
      match rest with
      | c :: d :: e :: rest2 =>
          decide (0x90 ≤ c.val ∧ c.val ≤ 0xBF) &&
          decide (0x80 ≤ d.val ∧ d.val ≤ 0xBF) &&
          decide (0x80 ≤ e.val ∧ e.val ≤ 0xBF) && validUtf8 rest2
      | _ => false
    else if 0xF1 ≤ b.val ∧ b.val ≤ 0xF3 then
      match rest with
      | c :: d :: e :: rest2 =>
          decide (0x80 ≤ c.val ∧ c.val ≤ 0xBF) &&
          decide (0x80 ≤ d.val ∧ d.val ≤ 0xBF) &&
          decide (0x80 ≤ e.val ∧ e.val ≤ 0xBF) && validUtf8 rest2
      | _ => false
    else if b.val = 0xF4 then
      match rest with
      | c :: d :: e :: rest2 =>
          decide (0x80 ≤ c.val ∧ c.val ≤ 0x8F) &&
          decide (0x80 ≤ d.val ∧ d.val ≤ 0xBF) &&
          decide (0x80 ≤ e.val ∧ e.val ≤ 0xBF) && validUtf8 rest2
      | _ => false
    else false

structure Header where
  version : Byte
  timestamp : Nat
deriving DecidableEq

structure MessageHeader where
  msg_size : Nat
  msg_type : Byte
deriving DecidableEq

structure MessageFlagBits where
  header : MessageHeader
  compat_flags : List Byte
  incompat_flags : List Byte
  appended_offsets : List Byte
deriving DecidableEq

structure MessageFormat where
  header : MessageHeader
  format : List Byte
deriving DecidableEq

structure MessageInfo where
  header : MessageHeader
  key_len : Byte
  key : List Byte
  value : List Byte
deriving DecidableEq

structure MessageInfoMultiple where
  header : MessageHeader
  is_continued : Byte
  key_len : Byte
  key : List Byte
  value : List Byte
deriving DecidableEq

structure MessageParameter where
  header : MessageHeader
  key_len : Byte
  key : List Byte
  value : List Byte
deriving DecidableEq

structure MessageParameterDefault where
  header : MessageHeader
  default_types : Byte
  key_len : Byte
  key : List Byte
  value : List Byte
deriving DecidableEq

structure MessageAddLogged where
  header : MessageHeader
  multi_id : Byte
  msg_id : Nat
  message_name : List Byte
deriving DecidableEq

structure MessageRemoveLogged where
  header : MessageHeader
  msg_id : Nat
deriving DecidableEq

structure MessageData where
  header : MessageHeader
  msg_id : Nat
  data : List Byte
deriving DecidableEq

structure MessageLogging where
  header : MessageHeader
  log_level : Byte
  timestamp : Nat
  message : List Byte
deriving DecidableEq

structure MessageLoggingTagged where
  header : MessageHeader
  log_level : Byte
  tag : Nat
  timestamp : Nat
  message : List Byte
deriving DecidableEq

structure MessageSync where
  header : MessageHeader
  sync_magic : Byte
deriving DecidableEq

structure MessageDropout where
  header : MessageHeader
  duration : Nat
deriving DecidableEq

inductive Message where
  | Format : MessageFormat → Message
  | Info : MessageInfo → Message
  | InfoMultiple : MessageInfoMultiple → Message
  | Parameter : MessageParameter → Message
  | ParameterDefault : MessageParameterDefault → Message
  | AddLogged : MessageAddLogged → Message
  | RemoveLogged : MessageRemoveLogged → Message
  | Data : MessageData → Message
  | Logging : MessageLogging → Message
  | LoggingTagged : MessageLoggingTagged → Message
  | Sync : MessageSync → Message
  | Dropout : MessageDropout → Message
deriving DecidableEq

structure Ulog where
  header : Header
  message_flag_bits : MessageFlagBits
  messages : List Message
deriving DecidableEq

/-- The 7 magic bytes at the start of every ULog file. -/
def magic : List Byte := [0x55, 0x4C, 0x6F, 0x67, 0x01, 0x12, 0x35]

/-- `header` from src/lib.rs: magic, 1-byte version, 8-byte LE timestamp. -/
def header (input : List Byte) : PResult Header :=
  pbind (tagBytes magic input) fun input _ =>
  pbind (u8 input) fun input version =>
  pbind (le_u64 input) fun input timestamp =>
  .ok input ⟨version, timestamp⟩

/-- `message_header` from src/lib.rs: 2-byte LE size then one literal tag
byte. -/
def message_header (input : List Byte) (t : Byte) : PResult MessageHeader :=
  pbind (le_u16 input) fun input msg_size =>
  pbind (tagBytes [t] input) fun input _ =>
  .ok input ⟨msg_size, t⟩

/-- `message_flag_bits` from src/lib.rs (tag B = 0x42). -/
def message_flag_bits (input : List Byte) : PResult MessageFlagBits :=
  pbind (message_header input 0x42) fun input hd =>
  pbind (take hd.msg_size input) fun input body =>
  pbind (take 8 body) fun body compat =>
  pbind (take 8 body) fun body incompat =>
  pbind (take 3 body) fun _ offsets =>
  .ok input ⟨hd, compat, incompat, offsets⟩

/-- `message_format` from src/lib.rs (tag F = 0x46). -/
def message_format (input : List Byte) : PResult Message :=
  pbind (message_header input 0x46) fun input hd =>
  pbind (take hd.msg_size input) fun input fmt =>
  if validUtf8 fmt then .ok input (.Format ⟨hd, fmt⟩) else .panicked

/-- `message_info` from src/lib.rs (tag I = 0x49). -/
def message_info (input : List Byte) : PResult Message :=
  pbind (message_header input 0x49) fun input hd =>
  pbind (u8 input) fun input key_len =>
  pbind (take key_len.val input) fun input key =>
  pbind (take (u16sub (u16sub hd.msg_size 1) key_len.val) input) fun input value =>
  if validUtf8 key then .ok input (.Info ⟨hd, key_len, key, value⟩) else .panicked

/-- `message_info_multiple` from src/lib.rs (tag M = 0x4D). -/
def message_info_multiple (input : List Byte) : PResult Message :=
  pbind (message_header input 0x4D) fun input hd =>
  pbind (u8 input) fun input is_continued =>
  pbind (u8 input) fun input key_len =>
  pbind (take key_len.val input) fun input key =>
  pbind (take (u16sub (u16sub hd.msg_size 2) key_len.val) input) fun input value =>
  if validUtf8 key then .ok input (.InfoMultiple ⟨hd, is_continued, key_len, key, value⟩)
  else .panicked

/-- `message_parameter` from src/lib.rs (tag P = 0x50). -/
def message_parameter (input : List Byte) : PResult Message :=
  pbind (message_header input 0x50) fun input hd =>
  pbind (u8 input) fun input key_len =>
  pbind (take key_len.val input) fun input key =>
  pbind (take (u16sub (u16sub hd.msg_size 1) key_len.val) input) fun input value =>
  if validUtf8 key then .ok input (.Parameter ⟨hd, key_len, key, value⟩) else .panicked

/-- `message_parameter_default` from src/lib.rs (tag Q = 0x51). -/
def message_parameter_default (input : List Byte) : PResult Message :=
  pbind (message_header input 0x51) fun input hd =>
  pbind (u8 input) fun input default_types =>
  pbind (u8 input) fun input key_len =>
  pbind (take key_len.val input) fun input key =>
  pbind (take (u16sub (u16sub hd.msg_size 2) key_len.val) input) fun input value =>
  if validUtf8 key then .ok input (.ParameterDefault ⟨hd, default_types, key_len, key, value⟩)
  else .panicked

/-- `message_add_logged` from src/lib.rs (tag A = 0x41). -/
def message_add_logged (input : List Byte) : PResult Message :=
  pbind (message_header input 0x41) fun input hd =>
  pbind (u8 input) fun input multi_id =>
  pbind (le_u16 input) fun input msg_id =>
  pbind (take (u16sub hd.msg_size 3) input) fun input message_name =>
  if validUtf8 message_name then .ok input (.AddLogged ⟨hd, multi_id, msg_id, message_name⟩)
  else .panicked

/-- `message_remove_logged` from src/lib.rs (tag R = 0x52). -/
def message_remove_logged (input : List Byte) : PResult Message :=
  pbind (message_header input 0x52) fun input hd =>
  pbind (le_u16 input) fun input msg_id =>
  .ok input (.RemoveLogged ⟨hd, msg_id⟩)

/-- `message_data` from src/lib.rs (tag D = 0x44). -/
def message_data (input : List Byte) : PResult Message :=
  pbind (message_header input 0x44) fun input hd =>
  pbind (le_u16 input) fun input msg_id =>
  pbind (take (u16sub hd.msg_size 2) input) fun input data =>
  .ok input (.Data ⟨hd, msg_id, data⟩)

/-- `message_logging` from src/lib.rs (tag L = 0x4C). -/
def message_logging (input : List Byte) : PResult Message :=
  pbind (message_header input 0x4C) fun input hd =>
  pbind (u8 input) fun input log_level =>
  pbind (le_u64 input) fun input timestamp =>
  pbind (take (u16sub hd.msg_size 9) input) fun input message =>
  if validUtf8 message then .ok input (.Logging ⟨hd, log_level, timestamp, message⟩)
  else .panicked

/-- `message_logging_tagged` from src/lib.rs (tag C = 0x43). -/
def message_logging_tagged (input : List Byte) : PResult Message :=
  pbind (message_header input 0x43) fun input hd =>
  pbind (u8 input) fun input log_level =>
  pbind (le_u16 input) fun input tg =>
  pbind (le_u64 input) fun input timestamp =>
  pbind (take (u16sub hd.msg_size 11) input) fun input message =>
  if validUtf8 message then .ok input (.LoggingTagged ⟨hd, log_level, tg, timestamp, message⟩)
  else .panicked

/-- `message_sync` from src/lib.rs (tag S = 0x53). -/
def message_sync (input : List Byte) : PResult Message :=
  pbind (message_header input 0x53) fun input hd =>
  pbind (u8 input) fun input sync_magic =>
  .ok input (.Sync ⟨hd, sync_magic⟩)

/-- `message_dropout` from src/lib.rs (tag O = 0x4F). -/
def message_dropout (input : List Byte) : PResult Message :=
  pbind (message_header input 0x4F) fun input hd =>
  pbind (le_u16 input) fun input duration =>
  .ok input (.Dropout ⟨hd, duration⟩)

/-- `message` from src/lib.rs: the twelve-way `alt` dispatch, in source
order. -/
def message (input : List Byte) : PResult Message :=
  palt (message_format input) fun _ =>
  palt (message_info input) fun _ =>
  palt (message_info_multiple input) fun _ =>
  palt (message_parameter input) fun _ =>
  palt (message_parameter_default input) fun _ =>
  palt (message_add_logged input) fun _ =>
  palt (message_remove_logged input) fun _ =>
  palt (message_data input) fun _ =>
  palt (message_logging input) fun _ =>
  palt (message_logging_tagged input) fun _ =>
  palt (message_sync input) fun _ =>
  message_dropout input

/-- nom `many0(message)`: repeat `message` until it returns a recoverable
error, collecting the results; the unconsumed remainder is kept. A fuel
argument bounds the recursion; `message` consumes at least 3 bytes per
success, so fuel equal to the input length never runs out before the
parser stops by itself. -/
def many0 : Nat → List Byte → PResult (List Message)
  | 0, input => .ok input []
  | fuel + 1, input =>
    match message input with
    | .err => .ok input []
    | .panicked => .panicked
    | .ok rest m =>
      pbind (many0 fuel rest) fun rest2 ms => .ok rest2 (m :: ms)

/-- `ulog` from src/lib.rs: header, then flag bits, then `many0(message)`;
the remainder after `many0` is discarded and the empty buffer returned. -/
def ulog (input : List Byte) : PResult Ulog :=
  pbind (header input) fun input hd =>
  pbind (message_flag_bits input) fun input fb =>
  pbind (many0 input.length input) fun _ ms =>
  .ok [] ⟨hd, fb, ms⟩

/-- Outcome of `parse_ulog`, which converts the nom result to an `Option`
with `.ok()?`; a panic inside `ulog` still aborts. -/
inductive POut (α : Type) where
  | value : α → POut α
  | panicked : POut α
deriving DecidableEq

/-- `parse_ulog` from src/lib.rs. -/
def parse_ulog (input : List Byte) : POut (Option Ulog) :=
  match ulog input with
  | .ok _ u => .value (some u)
  | .err => .value none
  | .panicked => .panicked

/-! ### Inversion lemmas for the primitives -/

@[simp]
theorem pbind_ok {α β : Type} {r : PResult α} {f : List Byte → α → PResult β}
    {rest : List Byte} {a : β} :
    pbind r f = .ok rest a ↔ ∃ rest' b, r = .ok rest' b ∧ f rest' b = .ok rest a := by
  cases r with
  | ok r' b =>
    simp only [pbind]
    constructor
    · intro h; exact ⟨r', b, rfl, h⟩
    · rintro ⟨r'', b', heq, h⟩
      cases heq; exact h
  | err => simp [pbind]
  | panicked => simp [pbind]

theorem pbind_ne_err {α β : Type} {r : PResult α} {f : List Byte → α → PResult β}
    (h : pbind r f ≠ .err) : r ≠ .err := by
  intro he; rw [he] at h; exact h rfl

@[simp]
theorem ite_ok {α : Type} {c : Prop} [Decidable c] {r r' : List Byte} {v v' : α} :
    ((if c then PResult.ok r v else .panicked) = .ok r' v') ↔ c ∧ r = r' ∧ v = v' := by
  split <;> simp_all

@[simp]
theorem u8_ok {input rest : List Byte} {v : Byte} :
    u8 input = .ok rest v ↔ input = v :: rest := by
  cases input
  · simp [u8]
  · simp [u8]; aesop

@[simp]
theorem le_u16_ok {input rest : List Byte} {v : Nat} :
    le_u16 input = .ok rest v ↔
      ∃ b0 b1 : Byte, input = b0 :: b1 :: rest ∧ v = b0.val + 256 * b1.val := by
  match input with
  | [] => simp [le_u16]
  | [b] => simp [le_u16]
  | b0 :: b1 :: r => simp only [le_u16, PResult.ok.injEq]; aesop

@[simp]
theorem le_u64_ok {input rest : List Byte} {v : Nat} :
    le_u64 input = .ok rest v ↔
      ∃ b0 b1 b2 b3 b4 b5 b6 b7 : Byte,
        input = b0 :: b1 :: b2 :: b3 :: b4 :: b5 :: b6 :: b7 :: rest ∧
        v = b0.val + 256 * (b1.val + 256 * (b2.val + 256 * (b3.val +
          256 * (b4.val + 256 * (b5.val + 256 * (b6.val + 256 * b7.val)))))) := by
  match input with
  | b0 :: b1 :: b2 :: b3 :: b4 :: b5 :: b6 :: b7 :: r =>
    simp only [le_u64, PResult.ok.injEq]; aesop
  | [] | [_] | [_,_] | [_,_,_] | [_,_,_,_] | [_,_,_,_,_] | [_,_,_,_,_,_]
  | [_,_,_,_,_,_,_] => simp [le_u64]

@[simp]
theorem take_ok {n : Nat} {input rest v : List Byte} :
    take n input = .ok rest v ↔
      n ≤ input.length ∧ rest = List.drop n input ∧ v = List.take n input := by
  unfold take; split
  · simp_all; aesop
  · simp_all

@[simp]
theorem tag1_ok {t : Byte} {input rest v : List Byte} :
    tagBytes [t] input = .ok rest v ↔ input = t :: rest ∧ v = [t] := by
  cases input with
  | nil => simp [tagBytes]
  | cons b r =>
    simp only [tagBytes, List.length_cons, List.length_nil, Nat.zero_add,
      List.take_succ_cons, List.take_zero, List.drop_succ_cons, List.drop_zero]
    split
    · next he =>
        simp only [List.cons.injEq, and_true] at he
        subst he
        simp only [PResult.ok.injEq, List.cons.injEq, true_and]
        aesop
    · next he => simp_all

@[simp]
theorem message_header_ok {input rest : List Byte} {t : Byte} {hd : MessageHeader} :
    message_header input t = .ok rest hd ↔
      ∃ b0 b1 : Byte, input = b0 :: b1 :: t :: rest ∧
        hd = ⟨b0.val + 256 * b1.val, t⟩ := by
  unfold message_header
  simp only [pbind_ok, le_u16_ok, tag1_ok, PResult.ok.injEq]
  constructor
  · rintro ⟨r1, sz, ⟨b0, b1, rfl, rfl⟩, r2, tb, ⟨rfl, rfl⟩, rfl, rfl⟩
    exact ⟨b0, b1, rfl, rfl⟩
  · rintro ⟨b0, b1, rfl, rfl⟩
    exact ⟨_, _, ⟨b0, b1, rfl, rfl⟩, _, _, ⟨rfl, rfl⟩, rfl, rfl⟩

theorem u16sub_of_le {a b : Nat} (h : b ≤ a) (h2 : a < 65536) : u16sub a b = a - b := by
  unfold u16sub; omega

/-! ### Success-shape lemmas, one per record decoder -/

theorem message_format_spec {input rest : List Byte} {m : Message}
    (h : message_format input = .ok rest m) :
    ∃ b0 b1 : Byte, ∃ rest1 : List Byte,
      input = b0 :: b1 :: (0x46 : Byte) :: rest1 ∧
      b0.val + 256 * b1.val ≤ rest1.length ∧
      validUtf8 (List.take (b0.val + 256 * b1.val) rest1) = true ∧
      rest = List.drop (b0.val + 256 * b1.val) rest1 ∧
      m = .Format ⟨⟨b0.val + 256 * b1.val, 0x46⟩, List.take (b0.val + 256 * b1.val) rest1⟩ := by
  unfold message_format at h
  simp only [pbind_ok, message_header_ok, take_ok, ite_ok, PResult.ok.injEq] at h
  obtain ⟨r1, hd', ⟨b0, b1, rfl, rfl⟩, r2, fmt, ⟨hlen, rfl, rfl⟩, hval, rfl, rfl⟩ := h
  exact ⟨b0, b1, r1, rfl, hlen, hval, rfl, rfl⟩

theorem message_info_spec {input rest : List Byte} {m : Message}
    (h : message_info input = .ok rest m) :
    ∃ b0 b1 kl : Byte, ∃ rest1 : List Byte,
      input = b0 :: b1 :: (0x49 : Byte) :: kl :: rest1 ∧
      kl.val ≤ rest1.length ∧
      u16sub (u16sub (b0.val + 256 * b1.val) 1) kl.val ≤ rest1.length - kl.val ∧
      validUtf8 (List.take kl.val rest1) = true ∧
      rest = List.drop (u16sub (u16sub (b0.val + 256 * b1.val) 1) kl.val)
        (List.drop kl.val rest1) ∧
      m = .Info ⟨⟨b0.val + 256 * b1.val, 0x49⟩, kl, List.take kl.val rest1,
        List.take (u16sub (u16sub (b0.val + 256 * b1.val) 1) kl.val)
          (List.drop kl.val rest1)⟩ := by
  unfold message_info at h
  simp only [pbind_ok, message_header_ok, u8_ok, take_ok, ite_ok, PResult.ok.injEq] at h
  obtain ⟨r1, hd', ⟨b0, b1, rfl, rfl⟩, r2, kl, rfl, r3, key, ⟨hk, rfl, rfl⟩,
    r4, v, ⟨hv, rfl, rfl⟩, hval, rfl, rfl⟩ := h
  refine ⟨b0, b1, kl, r2, rfl, hk, ?_, hval, rfl, rfl⟩
  simpa [List.length_drop] using hv

theorem message_info_multiple_spec {input rest : List Byte} {m : Message}
    (h : message_info_multiple input = .ok rest m) :
    ∃ b0 b1 ic kl : Byte, ∃ rest1 : List Byte,
      input = b0 :: b1 :: (0x4D : Byte) :: ic :: kl :: rest1 ∧
      kl.val ≤ rest1.length ∧
      u16sub (u16sub (b0.val + 256 * b1.val) 2) kl.val ≤ rest1.length - kl.val ∧
      validUtf8 (List.take kl.val rest1) = true ∧
      rest = List.drop (u16sub (u16sub (b0.val + 256 * b1.val) 2) kl.val)
        (List.drop kl.val rest1) ∧
      m = .InfoMultiple ⟨⟨b0.val + 256 * b1.val, 0x4D⟩, ic, kl, List.take kl.val rest1,
        List.take (u16sub (u16sub (b0.val + 256 * b1.val) 2) kl.val)
          (List.drop kl.val rest1)⟩ := by
  unfold message_info_multiple at h
  simp only [pbind_ok, message_header_ok, u8_ok, take_ok, ite_ok, PResult.ok.injEq] at h
  obtain ⟨r1, hd', ⟨b0, b1, rfl, rfl⟩, r2, ic, rfl, r3, kl, rfl, r4, key, ⟨hk, rfl, rfl⟩,
    r5, v, ⟨hv, rfl, rfl⟩, hval, rfl, rfl⟩ := h
  refine ⟨b0, b1, ic, kl, r3, rfl, hk, ?_, hval, rfl, rfl⟩
  simpa [List.length_drop] using hv

theorem message_parameter_spec {input rest : List Byte} {m : Message}
    (h : message_parameter input = .ok rest m) :
    ∃ b0 b1 kl : Byte, ∃ rest1 : List Byte,
      input = b0 :: b1 :: (0x50 : Byte) :: kl :: rest1 ∧
      kl.val ≤ rest1.length ∧
      u16sub (u16sub (b0.val + 256 * b1.val) 1) kl.val ≤ rest1.length - kl.val ∧
      validUtf8 (List.take kl.val rest1) = true ∧
      rest = List.drop (u16sub (u16sub (b0.val + 256 * b1.val) 1) kl.val)
        (List.drop kl.val rest1) ∧
      m = .Parameter ⟨⟨b0.val + 256 * b1.val, 0x50⟩, kl, List.take kl.val rest1,
        List.take (u16sub (u16sub (b0.val + 256 * b1.val) 1) kl.val)
          (List.drop kl.val rest1)⟩ := by
  unfold message_parameter at h
  simp only [pbind_ok, message_header_ok, u8_ok, take_ok, ite_ok, PResult.ok.injEq] at h
  obtain ⟨r1, hd', ⟨b0, b1, rfl, rfl⟩, r2, kl, rfl, r3, key, ⟨hk, rfl, rfl⟩,
    r4, v, ⟨hv, rfl, rfl⟩, hval, rfl, rfl⟩ := h
  refine ⟨b0, b1, kl, r2, rfl, hk, ?_, hval, rfl, rfl⟩
  simpa [List.length_drop] using hv

theorem message_parameter_default_spec {input rest : List Byte} {m : Message}
    (h : message_parameter_default input = .ok rest m) :
    ∃ b0 b1 dt kl : Byte, ∃ rest1 : List Byte,
      input = b0 :: b1 :: (0x51 : Byte) :: dt :: kl :: rest1 ∧
      kl.val ≤ rest1.length ∧
      u16sub (u16sub (b0.val + 256 * b1.val) 2) kl.val ≤ rest1.length - kl.val ∧
      validUtf8 (List.take kl.val rest1) = true ∧
      rest = List.drop (u16sub (u16sub (b0.val + 256 * b1.val) 2) kl.val)
        (List.drop kl.val rest1) ∧
      m = .ParameterDefault ⟨⟨b0.val + 256 * b1.val, 0x51⟩, dt, kl, List.take kl.val rest1,
        List.take (u16sub (u16sub (b0.val + 256 * b1.val) 2) kl.val)
          (List.drop kl.val rest1)⟩ := by
  unfold message_parameter_default at h
  simp only [pbind_ok, message_header_ok, u8_ok, take_ok, ite_ok, PResult.ok.injEq] at h
  obtain ⟨r1, hd', ⟨b0, b1, rfl, rfl⟩, r2, dt, rfl, r3, kl, rfl, r4, key, ⟨hk, rfl, rfl⟩,
    r5, v, ⟨hv, rfl, rfl⟩, hval, rfl, rfl⟩ := h
  refine ⟨b0, b1, dt, kl, r3, rfl, hk, ?_, hval, rfl, rfl⟩
  simpa [List.length_drop] using hv

theorem message_add_logged_spec {input rest : List Byte} {m : Message}
    (h : message_add_logged input = .ok rest m) :
    ∃ b0 b1 mi c0 c1 : Byte, ∃ rest1 : List Byte,
      input = b0 :: b1 :: (0x41 : Byte) :: mi :: c0 :: c1 :: rest1 ∧
      u16sub (b0.val + 256 * b1.val) 3 ≤ rest1.length ∧
      validUtf8 (List.take (u16sub (b0.val + 256 * b1.val) 3) rest1) = true ∧
      rest = List.drop (u16sub (b0.val + 256 * b1.val) 3) rest1 ∧
      m = .AddLogged ⟨⟨b0.val + 256 * b1.val, 0x41⟩, mi, c0.val + 256 * c1.val,
        List.take (u16sub (b0.val + 256 * b1.val) 3) rest1⟩ := by
  unfold message_add_logged at h
  simp only [pbind_ok, message_header_ok, u8_ok, le_u16_ok, take_ok, ite_ok,
    PResult.ok.injEq] at h
  obtain ⟨r1, hd', ⟨b0, b1, rfl, rfl⟩, r2, mi, rfl, r3, mid, ⟨c0, c1, rfl, rfl⟩,
    r4, nm, ⟨hn, rfl, rfl⟩, hval, rfl, rfl⟩ := h
  exact ⟨b0, b1, mi, c0, c1, r3, rfl, hn, hval, rfl, rfl⟩

theorem message_remove_logged_spec {input rest : List Byte} {m : Message}
    (h : message_remove_logged input = .ok rest m) :
    ∃ b0 b1 c0 c1 : Byte,
      input = b0 :: b1 :: (0x52 : Byte) :: c0 :: c1 :: rest ∧
      m = .RemoveLogged ⟨⟨b0.val + 256 * b1.val, 0x52⟩, c0.val + 256 * c1.val⟩ := by
  unfold message_remove_logged at h
  simp only [pbind_ok, message_header_ok, le_u16_ok, PResult.ok.injEq] at h
  obtain ⟨r1, hd', ⟨b0, b1, rfl, rfl⟩, r2, mid, ⟨c0, c1, rfl, rfl⟩, rfl, rfl⟩ := h
  exact ⟨b0, b1, c0, c1, rfl, rfl⟩

theorem message_data_spec {input rest : List Byte} {m : Message}
    (h : message_data input = .ok rest m) :
    ∃ b0 b1 c0 c1 : Byte, ∃ rest1 : List Byte,
      input = b0 :: b1 :: (0x44 : Byte) :: c0 :: c1 :: rest1 ∧
      u16sub (b0.val + 256 * b1.val) 2 ≤ rest1.length ∧
      rest = List.drop (u16sub (b0.val + 256 * b1.val) 2) rest1 ∧
      m = .Data ⟨⟨b0.val + 256 * b1.val, 0x44⟩, c0.val + 256 * c1.val,
        List.take (u16sub (b0.val + 256 * b1.val) 2) rest1⟩ := by
  unfold message_data at h
  simp only [pbind_ok, message_header_ok, le_u16_ok, take_ok, PResult.ok.injEq] at h
  obtain ⟨r1, hd', ⟨b0, b1, rfl, rfl⟩, r2, mid, ⟨c0, c1, rfl, rfl⟩,
    r3, d, ⟨hd2, rfl, rfl⟩, rfl, rfl⟩ := h
  exact ⟨b0, b1, c0, c1, r2, rfl, hd2, rfl, rfl⟩

theorem message_logging_spec {input rest : List Byte} {m : Message}
    (h : message_logging input = .ok rest m) :
    ∃ b0 b1 lv t0 t1 t2 t3 t4 t5 t6 t7 : Byte, ∃ rest1 : List Byte,
      input = b0 :: b1 :: (0x4C : Byte) :: lv :: t0 :: t1 :: t2 :: t3 :: t4 :: t5 ::
        t6 :: t7 :: rest1 ∧
      u16sub (b0.val + 256 * b1.val) 9 ≤ rest1.length ∧
      validUtf8 (List.take (u16sub (b0.val + 256 * b1.val) 9) rest1) = true ∧
      rest = List.drop (u16sub (b0.val + 256 * b1.val) 9) rest1 ∧
      m = .Logging ⟨⟨b0.val + 256 * b1.val, 0x4C⟩, lv,
        t0.val + 256 * (t1.val + 256 * (t2.val + 256 * (t3.val +
          256 * (t4.val + 256 * (t5.val + 256 * (t6.val + 256 * t7.val)))))),
        List.take (u16sub (b0.val + 256 * b1.val) 9) rest1⟩ := by
  unfold message_logging at h
  simp only [pbind_ok, message_header_ok, u8_ok, le_u64_ok, take_ok, ite_ok,
    PResult.ok.injEq] at h
  obtain ⟨r1, hd', ⟨b0, b1, rfl, rfl⟩, r2, lv, rfl, r3, ts,
    ⟨t0, t1, t2, t3, t4, t5, t6, t7, rfl, rfl⟩,
    r4, msg, ⟨hm, rfl, rfl⟩, hval, rfl, rfl⟩ := h
  exact ⟨b0, b1, lv, t0, t1, t2, t3, t4, t5, t6, t7, r3, rfl, hm, hval, rfl, rfl⟩

theorem message_logging_tagged_spec {input rest : List Byte} {m : Message}
    (h : message_logging_tagged input = .ok rest m) :
    ∃ b0 b1 lv g0 g1 t0 t1 t2 t3 t4 t5 t6 t7 : Byte, ∃ rest1 : List Byte,
      input = b0 :: b1 :: (0x43 : Byte) :: lv :: g0 :: g1 :: t0 :: t1 :: t2 :: t3 ::
        t4 :: t5 :: t6 :: t7 :: rest1 ∧
      u16sub (b0.val + 256 * b1.val) 11 ≤ rest1.length ∧
      validUtf8 (List.take (u16sub (b0.val + 256 * b1.val) 11) rest1) = true ∧
      rest = List.drop (u16sub (b0.val + 256 * b1.val) 11) rest1 ∧
      m = .LoggingTagged ⟨⟨b0.val + 256 * b1.val, 0x43⟩, lv, g0.val + 256 * g1.val,
        t0.val + 256 * (t1.val + 256 * (t2.val + 256 * (t3.val +
          256 * (t4.val + 256 * (t5.val + 256 * (t6.val + 256 * t7.val)))))),
        List.take (u16sub (b0.val + 256 * b1.val) 11) rest1⟩ := by
  unfold message_logging_tagged at h
  simp only [pbind_ok, message_header_ok, u8_ok, le_u16_ok, le_u64_ok, take_ok, ite_ok,
    PResult.ok.injEq] at h
  obtain ⟨r1, hd', ⟨b0, b1, rfl, rfl⟩, r2, lv, rfl, r3, tg, ⟨g0, g1, rfl, rfl⟩, r4, ts,
    ⟨t0, t1, t2, t3, t4, t5, t6, t7, rfl, rfl⟩,
    r5, msg, ⟨hm, rfl, rfl⟩, hval, rfl, rfl⟩ := h
  exact ⟨b0, b1, lv, g0, g1, t0, t1, t2, t3, t4, t5, t6, t7, r4, rfl, hm, hval, rfl, rfl⟩

theorem message_sync_spec {input rest : List Byte} {m : Message}
    (h : message_sync input = .ok rest m) :
    ∃ b0 b1 sm : Byte,
      input = b0 :: b1 :: (0x53 : Byte) :: sm :: rest ∧
      m = .Sync ⟨⟨b0.val + 256 * b1.val, 0x53⟩, sm⟩ := by
  unfold message_sync at h
  simp only [pbind_ok, message_header_ok, u8_ok, PResult.ok.injEq] at h
  obtain ⟨r1, hd', ⟨b0, b1, rfl, rfl⟩, r2, sm, rfl, rfl, rfl⟩ := h
  exact ⟨b0, b1, sm, rfl, rfl⟩

theorem message_dropout_spec {input rest : List Byte} {m : Message}
    (h : message_dropout input = .ok rest m) :
    ∃ b0 b1 c0 c1 : Byte,
      input = b0 :: b1 :: (0x4F : Byte) :: c0 :: c1 :: rest ∧
      m = .Dropout ⟨⟨b0.val + 256 * b1.val, 0x4F⟩, c0.val + 256 * c1.val⟩ := by
  unfold message_dropout at h
  simp only [pbind_ok, message_header_ok, le_u16_ok, PResult.ok.injEq] at h
  obtain ⟨r1, hd', ⟨b0, b1, rfl, rfl⟩, r2, d, ⟨c0, c1, rfl, rfl⟩, rfl, rfl⟩ := h
  exact ⟨b0, b1, c0, c1, rfl, rfl⟩

theorem message_flag_bits_spec {input rest : List Byte} {fb : MessageFlagBits}
    (h : message_flag_bits input = .ok rest fb) :
    ∃ b0 b1 : Byte, ∃ rest1 : List Byte,
      input = b0 :: b1 :: (0x42 : Byte) :: rest1 ∧
      b0.val + 256 * b1.val ≤ rest1.length ∧
      19 ≤ b0.val + 256 * b1.val ∧
      rest = List.drop (b0.val + 256 * b1.val) rest1 ∧
      fb = ⟨⟨b0.val + 256 * b1.val, 0x42⟩,
        List.take 8 (List.take (b0.val + 256 * b1.val) rest1),
        List.take 8 (List.drop 8 (List.take (b0.val + 256 * b1.val) rest1)),
        List.take 3 (List.drop 8 (List.drop 8 (List.take (b0.val + 256 * b1.val) rest1)))⟩ := by
  unfold message_flag_bits at h
  simp only [pbind_ok, message_header_ok, take_ok, PResult.ok.injEq] at h
  obtain ⟨r1, hd', ⟨b0, b1, rfl, rfl⟩, r2, body, ⟨hlen, rfl, rfl⟩,
    r3, cf, ⟨h8, rfl, rfl⟩, r4, icf, ⟨h8', rfl, rfl⟩,
    r5, ao, ⟨h3, rfl, rfl⟩, rfl, rfl⟩ := h
  refine ⟨b0, b1, r1, rfl, hlen, ?_, rfl, rfl⟩
  simp only [List.length_take, List.length_drop] at h8 h8' h3
  omega

/-! ### The dispatch table -/

/-- The record header stored inside each `Message` variant. -/
def headerOf : Message → MessageHeader
  | .Format m => m.header
  | .Info m => m.header
  | .InfoMultiple m => m.header
  | .Parameter m => m.header
  | .ParameterDefault m => m.header
  | .AddLogged m => m.header
  | .RemoveLogged m => m.header
  | .Data m => m.header
  | .Logging m => m.header
  | .LoggingTagged m => m.header
  | .Sync m => m.header
  | .Dropout m => m.header

/-- The `msg_type` byte stored inside a decoded `Message`. -/
def msgTypeOf (m : Message) : Byte := (headerOf m).msg_type

/-- The twelve body decoders in the order `message` tries them. -/
def decoderOf (i : Fin 12) : List Byte → PResult Message :=
  match i.val with
  | 0 => message_format
  | 1 => message_info
  | 2 => message_info_multiple
  | 3 => message_parameter
  | 4 => message_parameter_default
  | 5 => message_add_logged
  | 6 => message_remove_logged
  | 7 => message_data
  | 8 => message_logging
  | 9 => message_logging_tagged
  | 10 => message_sync
  | _ => message_dropout

/-- The tag byte that the `i`-th body decoder asserts at offset 2. -/
def tagOf (i : Fin 12) : Byte :=
  match i.val with
  | 0 => 0x46
  | 1 => 0x49
  | 2 => 0x4D
  | 3 => 0x50
  | 4 => 0x51
  | 5 => 0x41
  | 6 => 0x52
  | 7 => 0x44
  | 8 => 0x4C
  | 9 => 0x43
  | 10 => 0x53
  | _ => 0x4F

theorem tagOf_inj : ∀ i j : Fin 12, tagOf i = tagOf j → i = j := by decide

theorem message_header_cases (input : List Byte) (t : Byte) :
    (∃ rest hd, message_header input t = .ok rest hd) ∨ message_header input t = .err := by
  match input with
  | [] => right; rfl
  | [b] => right; rfl
  | b0 :: b1 :: r =>
    unfold message_header tagBytes
    simp only [le_u16, pbind]
    split
    · left; exact ⟨_, _, rfl⟩
    · right; rfl
    · rename_i r' heq
      split at heq <;> simp_all

theorem message_header_shape {input : List Byte} {t : Byte}
    (h : message_header input t ≠ .err) :
    ∃ b0 b1 : Byte, ∃ rest : List Byte, input = b0 :: b1 :: t :: rest := by
  rcases message_header_cases input t with ⟨rest, hd, hok⟩ | herr
  · obtain ⟨b0, b1, heq, _⟩ := message_header_ok.mp hok
    exact ⟨b0, b1, rest, heq⟩
  · exact absurd herr h

theorem decoderOf_shape (i : Fin 12) (input : List Byte)
    (h : decoderOf i input ≠ .err) :
    ∃ b0 b1 : Byte, ∃ rest : List Byte, input = b0 :: b1 :: tagOf i :: rest := by
  fin_cases i <;> exact message_header_shape (pbind_ne_err h)

theorem decoderOf_err_of_ne {input : List Byte} {i j : Fin 12}
    (hok : decoderOf i input ≠ .err) (hne : j ≠ i) : decoderOf j input = .err := by
  by_contra hj
  obtain ⟨b0, b1, r, he⟩ := decoderOf_shape i input hok
  obtain ⟨b0', b1', r', he'⟩ := decoderOf_shape j input hj
  rw [he] at he'
  simp only [List.cons.injEq] at he'
  exact hne (tagOf_inj j i he'.2.2.1.symm)

@[simp]
theorem palt_ok {α : Type} {r : PResult α} {f : Unit → PResult α} {rest : List Byte} {a : α} :
    palt r f = .ok rest a ↔ r = .ok rest a ∨ (r = .err ∧ f () = .ok rest a) := by
  cases r <;> simp [palt]

@[simp]
theorem palt_err {α : Type} {r : PResult α} {f : Unit → PResult α} :
    palt r f = .err ↔ r = .err ∧ f () = .err := by
  cases r <;> simp [palt]

theorem message_ok_to_decoder {input rest : List Byte} {m : Message}
    (h : message input = .ok rest m) :
    ∃ i : Fin 12, decoderOf i input = .ok rest m := by
  unfold message at h
  simp only [palt_ok] at h
  rcases h with h | ⟨e0, h | ⟨e1, h | ⟨e2, h | ⟨e3, h | ⟨e4, h | ⟨e5, h | ⟨e6,
    h | ⟨e7, h | ⟨e8, h | ⟨e9, h | ⟨e10, h⟩⟩⟩⟩⟩⟩⟩⟩⟩⟩⟩
  · exact ⟨0, h⟩
  · exact ⟨1, h⟩
  · exact ⟨2, h⟩
  · exact ⟨3, h⟩
  · exact ⟨4, h⟩
  · exact ⟨5, h⟩
  · exact ⟨6, h⟩
  · exact ⟨7, h⟩
  · exact ⟨8, h⟩
  · exact ⟨9, h⟩
  · exact ⟨10, h⟩
  · exact ⟨11, h⟩

theorem message_ok_of_decoder {input rest : List Byte} {m : Message} {i : Fin 12}
    (h : decoderOf i input = .ok rest m) :
    message input = .ok rest m := by
  have hok : decoderOf i input ≠ .err := by rw [h]; simp
  have hne : ∀ j : Fin 12, j ≠ i → decoderOf j input = .err := fun j hj =>
    decoderOf_err_of_ne hok hj
  fin_cases i
  · have h' : message_format input = .ok rest m := h
    unfold message; rw [h']; rfl
  · have e0 : message_format input = .err := hne 0 (by decide)
    have h' : message_info input = .ok rest m := h
    unfold message; rw [e0, h']; rfl
  · have e0 : message_format input = .err := hne 0 (by decide)
    have e1 : message_info input = .err := hne 1 (by decide)
    have h' : message_info_multiple input = .ok rest m := h
    unfold message; rw [e0, e1, h']; rfl
  · have e0 : message_format input = .err := hne 0 (by decide)
    have e1 : message_info input = .err := hne 1 (by decide)
    have e2 : message_info_multiple input = .err := hne 2 (by decide)
    have h' : message_parameter input = .ok rest m := h
    unfold message; rw [e0, e1, e2, h']; rfl
  · have e0 : message_format input = .err := hne 0 (by decide)
    have e1 : message_info input = .err := hne 1 (by decide)
    have e2 : message_info_multiple input = .err := hne 2 (by decide)
    have e3 : message_parameter input = .err := hne 3 (by decide)
    have h' : message_parameter_default input = .ok rest m := h
    unfold message; rw [e0, e1, e2, e3, h']; rfl
  · have e0 : message_format input = .err := hne 0 (by decide)
    have e1 : message_info input = .err := hne 1 (by decide)
    have e2 : message_info_multiple input = .err := hne 2 (by decide)
    have e3 : message_parameter input = .err := hne 3 (by decide)
    have e4 : message_parameter_default input = .err := hne 4 (by decide)
    have h' : message_add_logged input = .ok rest m := h
    unfold message; rw [e0, e1, e2, e3, e4, h']; rfl
  · have e0 : message_format input = .err := hne 0 (by decide)
    have e1 : message_info input = .err := hne 1 (by decide)
    have e2 : message_info_multiple input = .err := hne 2 (by decide)
    have e3 : message_parameter input = .err := hne 3 (by decide)
    have e4 : message_parameter_default input = .err := hne 4 (by decide)
    have e5 : message_add_logged input = .err := hne 5 (by decide)
    have h' : message_remove_logged input = .ok rest m := h
    unfold message; rw [e0, e1, e2, e3, e4, e5, h']; rfl
  · have e0 : message_format input = .err := hne 0 (by decide)
    have e1 : message_info input = .err := hne 1 (by decide)
    have e2 : message_info_multiple input = .err := hne 2 (by decide)
    have e3 : message_parameter input = .err := hne 3 (by decide)
    have e4 : message_parameter_default input = .err := hne 4 (by decide)
    have e5 : message_add_logged input = .err := hne 5 (by decide)
    have e6 : message_remove_logged input = .err := hne 6 (by decide)
    have h' : message_data input = .ok rest m := h
    unfold message; rw [e0, e1, e2, e3, e4, e5, e6, h']; rfl
  · have e0 : message_format input = .err := hne 0 (by decide)
    have e1 : message_info input = .err := hne 1 (by decide)
    have e2 : message_info_multiple input = .err := hne 2 (by decide)
    have e3 : message_parameter input = .err := hne 3 (by decide)
    have e4 : message_parameter_default input = .err := hne 4 (by decide)
    have e5 : message_add_logged input = .err := hne 5 (by decide)
    have e6 : message_remove_logged input = .err := hne 6 (by decide)
    have e7 : message_data input = .err := hne 7 (by decide)
    have h' : message_logging input = .ok rest m := h
    unfold message; rw [e0, e1, e2, e3, e4, e5, e6, e7, h']; rfl
  · have e0 : message_format input = .err := hne 0 (by decide)
    have e1 : message_info input = .err := hne 1 (by decide)
    have e2 : message_info_multiple input = .err := hne 2 (by decide)
    have e3 : message_parameter input = .err := hne 3 (by decide)
    have e4 : message_parameter_default input = .err := hne 4 (by decide)
    have e5 : message_add_logged input = .err := hne 5 (by decide)
    have e6 : message_remove_logged input = .err := hne 6 (by decide)
    have e7 : message_data input = .err := hne 7 (by decide)
    have e8 : message_logging input = .err := hne 8 (by decide)
    have h' : message_logging_tagged input = .ok rest m := h
    unfold message; rw [e0, e1, e2, e3, e4, e5, e6, e7, e8, h']; rfl
  · have e0 : message_format input = .err := hne 0 (by decide)
    have e1 : message_info input = .err := hne 1 (by decide)
    have e2 : message_info_multiple input = .err := hne 2 (by decide)
    have e3 : message_parameter input = .err := hne 3 (by decide)
    have e4 : message_parameter_default input = .err := hne 4 (by decide)
    have e5 : message_add_logged input = .err := hne 5 (by decide)
    have e6 : message_remove_logged input = .err := hne 6 (by decide)
    have e7 : message_data input = .err := hne 7 (by decide)
    have e8 : message_logging input = .err := hne 8 (by decide)
    have e9 : message_logging_tagged input = .err := hne 9 (by decide)
    have h' : message_sync input = .ok rest m := h
    unfold message; rw [e0, e1, e2, e3, e4, e5, e6, e7, e8, e9, h']; rfl
  · have e0 : message_format input = .err := hne 0 (by decide)
    have e1 : message_info input = .err := hne 1 (by decide)
    have e2 : message_info_multiple input = .err := hne 2 (by decide)
    have e3 : message_parameter input = .err := hne 3 (by decide)
    have e4 : message_parameter_default input = .err := hne 4 (by decide)
    have e5 : message_add_logged input = .err := hne 5 (by decide)
    have e6 : message_remove_logged input = .err := hne 6 (by decide)
    have e7 : message_data input = .err := hne 7 (by decide)
    have e8 : message_logging input = .err := hne 8 (by decide)
    have e9 : message_logging_tagged input = .err := hne 9 (by decide)
    have e10 : message_sync input = .err := hne 10 (by decide)
    have h' : message_dropout input = .ok rest m := h
    unfold message; rw [e0, e1, e2, e3, e4, e5, e6, e7, e8, e9, e10, h']; rfl

theorem message_err_iff {input : List Byte} :
    message input = .err ↔ ∀ i : Fin 12, decoderOf i input = .err := by
  unfold message
  simp only [palt_err]
  constructor
  · rintro ⟨h0, h1, h2, h3, h4, h5, h6, h7, h8, h9, h10, h11⟩ i
    fin_cases i <;> assumption
  · intro h
    exact ⟨h 0, h 1, h 2, h 3, h 4, h 5, h 6, h 7, h 8, h 9, h 10, h 11⟩

/-- Every successful `message` consumes at least the 3 record-header bytes. -/
theorem message_consumes {input rest : List Byte} {m : Message}
    (h : message input = .ok rest m) : rest.length + 3 ≤ input.length := by
  obtain ⟨i, hi⟩ := message_ok_to_decoder h
  fin_cases i
  · obtain ⟨b0, b1, r1, rfl, hlen, hval, rfl, rfl⟩ := message_format_spec hi
    simp only [List.length_drop, List.length_cons]
    omega
  · obtain ⟨b0, b1, kl, r1, rfl, hk, hv, hval, rfl, rfl⟩ := message_info_spec hi
    simp only [List.length_drop, List.length_cons]
    omega
  · obtain ⟨b0, b1, ic, kl, r1, rfl, hk, hv, hval, rfl, rfl⟩ :=
      message_info_multiple_spec hi
    simp only [List.length_drop, List.length_cons]
    omega
  · obtain ⟨b0, b1, kl, r1, rfl, hk, hv, hval, rfl, rfl⟩ := message_parameter_spec hi
    simp only [List.length_drop, List.length_cons]
    omega
  · obtain ⟨b0, b1, dt, kl, r1, rfl, hk, hv, hval, rfl, rfl⟩ :=
      message_parameter_default_spec hi
    simp only [List.length_drop, List.length_cons]
    omega
  · obtain ⟨b0, b1, mi, c0, c1, r1, rfl, hn, hval, rfl, rfl⟩ :=
      message_add_logged_spec hi
    simp only [List.length_drop, List.length_cons]
    omega
  · obtain ⟨b0, b1, c0, c1, rfl, rfl⟩ := message_remove_logged_spec hi
    simp only [List.length_cons]
    omega
  · obtain ⟨b0, b1, c0, c1, r1, rfl, hlen, rfl, rfl⟩ := message_data_spec hi
    simp only [List.length_drop, List.length_cons]
    omega
  · obtain ⟨b0, b1, lv, t0, t1, t2, t3, t4, t5, t6, t7, r1, rfl, hm, hval, rfl, rfl⟩ :=
      message_logging_spec hi
    simp only [List.length_drop, List.length_cons]
    omega
  · obtain ⟨b0, b1, lv, g0, g1, t0, t1, t2, t3, t4, t5, t6, t7, r1, rfl, hm, hval,
      rfl, rfl⟩ := message_logging_tagged_spec hi
    simp only [List.length_drop, List.length_cons]
    omega
  · obtain ⟨b0, b1, sm, rfl, rfl⟩ := message_sync_spec hi
    simp only [List.length_cons]
    omega
  · obtain ⟨b0, b1, c0, c1, rfl, rfl⟩ := message_dropout_spec hi
    simp only [List.length_cons]
    omega

/-- When the fuel covers the worst case (one record per 3 bytes), the
record loop stops only at the first failing record or at the end of the
buffer; the unconsumed remainder is what follows the last decoded record. -/
theorem many0_stops :
    ∀ (fuel : Nat) (input rest : List Byte) (ms : List Message),
      input.length ≤ 3 * fuel → many0 fuel input = .ok rest ms →
      message rest = .err ∨ rest = [] := by
  intro fuel
  induction fuel with
  | zero =>
    intro input rest ms hlen h
    simp only [many0, PResult.ok.injEq] at h
    right
    have : input = [] := by
      cases input with
      | nil => rfl
      | cons b r => simp at hlen
    rw [← h.1, this]
  | succ fuel ih =>
    intro input rest ms hlen h
    unfold many0 at h
    cases hm : message input with
    | err =>
      rw [hm] at h
      simp only [PResult.ok.injEq] at h
      left
      rw [← h.1]
      exact hm
    | panicked => rw [hm] at h; exact absurd h (by simp)
    | ok r' m' =>
      rw [hm] at h
      simp only [pbind_ok, PResult.ok.injEq] at h
      obtain ⟨r2, ms', hmany, hrest, hms⟩ := h
      have hc := message_consumes hm
      subst hrest
      exact ih r' r2 ms' (by omega) hmany

/-- `many0` with fuel at least 1 returns the empty record list as soon as
the first record fails. -/
theorem many0_first_err {fuel : Nat} {input : List Byte}
    (h : message input = .err) : many0 fuel input = .ok input [] := by
  cases fuel with
  | zero => rfl
  | succ fuel => unfold many0; rw [h]

/-- Composition of the top-level decoder: success of the three stages in
sequence gives success of `ulog`, with the remainder discarded. -/
theorem ulog_ok_of {input r1 r2 r3 : List Byte} {hd : Header} {fb : MessageFlagBits}
    {ms : List Message} (hh : header input = .ok r1 hd)
    (hf : message_flag_bits r1 = .ok r2 fb) (hm : many0 r2.length r2 = .ok r3 ms) :
    ulog input = .ok [] ⟨hd, fb, ms⟩ := by
  unfold ulog
  rw [hh]
  simp only [pbind]
  rw [hf]
  simp only [pbind]
  rw [hm]

/-- Inversion of a successful `ulog` into its three stages. -/
theorem ulog_ok_inv {input rest : List Byte} {u : Ulog} (h : ulog input = .ok rest u) :
    rest = [] ∧ ∃ r1 r2 r3, header input = .ok r1 u.header ∧
      message_flag_bits r1 = .ok r2 u.message_flag_bits ∧
      many0 r2.length r2 = .ok r3 u.messages := by
  unfold ulog at h
  simp only [pbind_ok, PResult.ok.injEq] at h
  obtain ⟨r1, hd, hh, r2, fb, hf, r3, ms, hm, hrest, hu⟩ := h
  subst hu
  exact ⟨hrest.symm, r1, r2, r3, hh, hf, hm⟩

/-! ### Encoders for the round-trip properties, and concrete inputs -/

def byteOf (n : Nat) : Byte := ⟨n % 256, Nat.mod_lt n (by decide)⟩

/-- 2-byte little-endian encoding (low byte first). -/
def le16enc (n : Nat) : List Byte := [byteOf n, byteOf (n / 256)]

/-- 8-byte little-endian encoding (low byte first). -/
def le64enc (n : Nat) : List Byte :=
  [byteOf n, byteOf (n / 256), byteOf (n / 65536), byteOf (n / 16777216),
   byteOf (n / 4294967296), byteOf (n / 1099511627776),
   byteOf (n / 281474976710656), byteOf (n / 72057594037927936)]

/-- A `Data` record as laid out in the file: 2-byte LE declared size
(`payload length + 2`), tag `D`, 2-byte LE `msg_id`, then the payload. -/
def encodeData (id : Nat) (payload : List Byte) : List Byte :=
  le16enc (payload.length + 2) ++ (0x44 : Byte) :: (le16enc id ++ payload)

/-- `take` of the whole remaining buffer succeeds and leaves nothing. -/
theorem take_length_self (l : List Byte) : take l.length l = .ok [] l := by
  unfold take
  simp

/-- A 16-byte file header followed by the mandatory 22-byte flag-bits
record (size 19, tag B, 19 zero bytes): the shortest well-formed file. -/
def goodFilePrefix : List Byte :=
  magic ++ [0x01] ++ List.replicate 8 0x00 ++ [0x13, 0x00, 0x42] ++ List.replicate 19 0x00

/-- Claim C6: for all version bytes v and timestamps t, decoding
magic ++ v ++ le64(t) yields a Header with that version and timestamp;
and every buffer that differs from the 7 magic bytes at some position
within the first 7 bytes fails to parse a header. -/
theorem c6_header_roundtrip :
    (∀ (v : Byte) (t : Nat) (rest : List Byte), t < 18446744073709551616 →
      header (magic ++ v :: (le64enc t ++ rest)) = .ok rest ⟨v, t⟩) ∧
    (∀ (input : List Byte) (i : Nat), i < 7 → input[i]? ≠ magic[i]? →
      header input = .err) := by
  constructor
  · intro v t rest ht
    unfold header
    have h1 : tagBytes magic (magic ++ v :: (le64enc t ++ rest)) =
        .ok (v :: (le64enc t ++ rest)) magic := by
      unfold tagBytes
      rw [if_pos (by simp)]
      simp
    rw [h1]
    simp only [pbind, u8]
    unfold le64enc byteOf le_u64
    simp only [List.cons_append, List.nil_append, pbind, PResult.ok.injEq,
      Header.mk.injEq, true_and]
    omega
  · intro input i hi hne
    unfold header
    cases hT : tagBytes magic input with
    | ok r v' =>
      exfalso
      unfold tagBytes at hT
      split at hT
      · next h7 =>
        apply hne
        have h7' : List.take 7 input = magic := h7
        rw [← h7', List.getElem?_take_of_lt hi]
      · exact PResult.noConfusion hT
    | err => rfl
    | panicked =>
      exfalso
      unfold tagBytes at hT
      split at hT <;> exact PResult.noConfusion hT

/-- Witness for C6 at version 7, timestamp 123, one trailing byte, and a
buffer breaking the magic at index 3. -/
theorem c6_header_roundtrip_witness :
    header (magic ++ (0x07 : Byte) :: (le64enc 123 ++ [0x99])) = .ok [0x99] ⟨0x07, 123⟩ ∧
    header [0x55, 0x4C, 0x6F, 0x00] = .err :=
  ⟨c6_header_roundtrip.1 0x07 123 [0x99] (by decide),
   c6_header_roundtrip.2 [0x55, 0x4C, 0x6F, 0x00] 3 (by decide) (by decide)⟩

/-- Claim C9: a `Data` record encoded from any msg id below 65536 and any
payload of at most 65535 bytes decodes back to exactly that id and
payload, consuming the whole record. -/
theorem c9_data_roundtrip :
    ∀ (id : Nat) (payload : List Byte), id < 65536 → payload.length ≤ 65535 →
      message_data (encodeData id payload) =
        .ok [] (.Data ⟨⟨(payload.length + 2) % 65536, 0x44⟩, id, payload⟩) := by
  intro id payload hid hn
  unfold encodeData le16enc
  unfold message_data
  simp only [List.cons_append, List.nil_append]
  have hh : message_header (byteOf (payload.length + 2) :: byteOf ((payload.length + 2) / 256)
      :: (0x44 : Byte) :: (byteOf id :: byteOf (id / 256) :: payload)) 0x44 =
      .ok (byteOf id :: byteOf (id / 256) :: payload)
        ⟨(byteOf (payload.length + 2)).val + 256 * (byteOf ((payload.length + 2) / 256)).val,
          0x44⟩ :=
    message_header_ok.mpr ⟨_, _, rfl, rfl⟩
  rw [hh]
  simp only [pbind, le_u16]
  have hsz : (byteOf (payload.length + 2)).val +
      256 * (byteOf ((payload.length + 2) / 256)).val = (payload.length + 2) % 65536 := by
    unfold byteOf
    simp only []
    omega
  have hsub : u16sub ((byteOf (payload.length + 2)).val +
      256 * (byteOf ((payload.length + 2) / 256)).val) 2 = payload.length := by
    rw [hsz]
    unfold u16sub
    omega
  have hid' : (byteOf id).val + 256 * (byteOf (id / 256)).val = id := by
    unfold byteOf
    simp only []
    omega
  simp only [hsub]
  rw [take_length_self]
  simp only [pbind, PResult.ok.injEq, Message.Data.injEq, MessageData.mk.injEq,
    MessageHeader.mk.injEq, true_and, and_true]
  exact ⟨hsz, hid'⟩

/-- Witness for C9 at msg id 7 and the 4-byte payload AB CD EF 12. -/
theorem c9_data_roundtrip_witness :
    message_data (encodeData 7 [0xAB, 0xCD, 0xEF, 0x12]) =
      .ok [] (.Data ⟨⟨6, 0x44⟩, 7, [0xAB, 0xCD, 0xEF, 0x12]⟩) :=
  c9_data_roundtrip 7 [0xAB, 0xCD, 0xEF, 0x12] (by decide) (by decide)

/-- Claim C8: the dispatch layer returns exactly what the unique matching
body decoder returns. (1) distinct asserted tags make at most one of the
twelve decoders succeed on a given buffer; (2) `message` succeeds with a
value exactly when some decoder does (necessarily the first, by (1));
(3) `message` errs exactly when all twelve err; (4) when the tag byte of no decoder
byte is at offset 2, `message` errs. -/
theorem c8_dispatch :
    ∀ input : List Byte,
      (∀ i j : Fin 12, i ≠ j →
        ¬(isOk (decoderOf i input) = true ∧ isOk (decoderOf j input) = true)) ∧
      (∀ (rest : List Byte) (m : Message),
        message input = .ok rest m ↔ ∃ i, decoderOf i input = .ok rest m) ∧
      (message input = .err ↔ ∀ i : Fin 12, decoderOf i input = .err) ∧
      ((∀ i : Fin 12, input[2]? ≠ some (tagOf i)) → message input = .err) := by
  intro input
  refine ⟨?_, ?_, message_err_iff, ?_⟩
  · rintro i j hne ⟨hi, hj⟩
    have hi' : decoderOf i input ≠ .err := by
      intro he; rw [he] at hi; exact absurd hi (by simp [isOk])
    rw [decoderOf_err_of_ne hi' (Ne.symm hne)] at hj
    exact absurd hj (by simp [isOk])
  · intro rest m
    exact ⟨message_ok_to_decoder, fun ⟨i, hi⟩ => message_ok_of_decoder hi⟩
  · intro hno
    apply message_err_iff.mpr
    intro i
    by_contra hne
    obtain ⟨b0, b1, r, heq⟩ := decoderOf_shape i input hne
    exact hno i (by rw [heq]; simp)

/-- Witness for C8: a buffer whose tag byte 0x7A matches none of the
twelve decoders, so dispatch errs. -/
theorem c8_dispatch_witness : message [0x01, 0x00, 0x7A] = .err :=
  (c8_dispatch [0x01, 0x00, 0x7A]).2.2.2 (by decide)

/-- Claim C10: whenever a body decoder succeeds, the stored MessageHeader
carries exactly the tag byte of that decoder as `msg_type`, and that byte
is what the input holds at offset 2 of the record; likewise for the
flag-bits decoder with tag B. -/
theorem c10_msg_type :
    ∀ (input rest : List Byte),
      (∀ (m : Message) (i : Fin 12), decoderOf i input = .ok rest m →
        msgTypeOf m = tagOf i ∧ input[2]? = some (tagOf i)) ∧
      (∀ fb : MessageFlagBits, message_flag_bits input = .ok rest fb →
        fb.header.msg_type = 0x42 ∧ input[2]? = some (0x42 : Byte)) := by
  intro input rest
  constructor
  · intro m i h
    fin_cases i
    · obtain ⟨b0, b1, r1, rfl, hlen, hval, rfl, rfl⟩ := message_format_spec h
      exact ⟨rfl, by simp only [List.getElem?_cons_succ, List.getElem?_cons_zero]; rfl⟩
    · obtain ⟨b0, b1, kl, r1, rfl, hk, hv, hval, rfl, rfl⟩ := message_info_spec h
      exact ⟨rfl, by simp only [List.getElem?_cons_succ, List.getElem?_cons_zero]; rfl⟩
    · obtain ⟨b0, b1, ic, kl, r1, rfl, hk, hv, hval, rfl, rfl⟩ :=
        message_info_multiple_spec h
      exact ⟨rfl, by simp only [List.getElem?_cons_succ, List.getElem?_cons_zero]; rfl⟩
    · obtain ⟨b0, b1, kl, r1, rfl, hk, hv, hval, rfl, rfl⟩ := message_parameter_spec h
      exact ⟨rfl, by simp only [List.getElem?_cons_succ, List.getElem?_cons_zero]; rfl⟩
    · obtain ⟨b0, b1, dt, kl, r1, rfl, hk, hv, hval, rfl, rfl⟩ :=
        message_parameter_default_spec h
      exact ⟨rfl, by simp only [List.getElem?_cons_succ, List.getElem?_cons_zero]; rfl⟩
    · obtain ⟨b0, b1, mi, c0, c1, r1, rfl, hn, hval, rfl, rfl⟩ :=
        message_add_logged_spec h
      exact ⟨rfl, by simp only [List.getElem?_cons_succ, List.getElem?_cons_zero]; rfl⟩
    · obtain ⟨b0, b1, c0, c1, rfl, rfl⟩ := message_remove_logged_spec h
      exact ⟨rfl, by simp only [List.getElem?_cons_succ, List.getElem?_cons_zero]; rfl⟩
    · obtain ⟨b0, b1, c0, c1, r1, rfl, hlen, rfl, rfl⟩ := message_data_spec h
      exact ⟨rfl, by simp only [List.getElem?_cons_succ, List.getElem?_cons_zero]; rfl⟩
    · obtain ⟨b0, b1, lv, t0, t1, t2, t3, t4, t5, t6, t7, r1, rfl, hm, hval, rfl, rfl⟩ :=
        message_logging_spec h
      exact ⟨rfl, by simp only [List.getElem?_cons_succ, List.getElem?_cons_zero]; rfl⟩
    · obtain ⟨b0, b1, lv, g0, g1, t0, t1, t2, t3, t4, t5, t6, t7, r1, rfl, hm, hval,
        rfl, rfl⟩ := message_logging_tagged_spec h
      exact ⟨rfl, by simp only [List.getElem?_cons_succ, List.getElem?_cons_zero]; rfl⟩
    · obtain ⟨b0, b1, sm, rfl, rfl⟩ := message_sync_spec h
      exact ⟨rfl, by simp only [List.getElem?_cons_succ, List.getElem?_cons_zero]; rfl⟩
    · obtain ⟨b0, b1, c0, c1, rfl, rfl⟩ := message_dropout_spec h
      exact ⟨rfl, by simp only [List.getElem?_cons_succ, List.getElem?_cons_zero]; rfl⟩
  · intro fb h
    obtain ⟨b0, b1, r1, rfl, hlen, h19, rfl, rfl⟩ := message_flag_bits_spec h
    exact ⟨rfl, by simp only [List.getElem?_cons_succ, List.getElem?_cons_zero]⟩

/-- Witness for C10: the Sync decoder on a concrete record stores tag S
and the input byte at offset 2 is S. -/
theorem c10_msg_type_witness :
    msgTypeOf (Message.Sync ⟨⟨1, 0x53⟩, 0x81⟩) = tagOf 10 ∧
    ([0x01, 0x00, 0x53, 0x81] : List Byte)[2]? = some (tagOf 10) :=
  (c10_msg_type [0x01, 0x00, 0x53, 0x81] []).1 (.Sync ⟨⟨1, 0x53⟩, 0x81⟩) 10 (by decide)

theorem take_cases (n : Nat) (l : List Byte) :
    (∃ r v, take n l = .ok r v) ∨ take n l = .err := by
  unfold take
  split
  · left; exact ⟨_, _, rfl⟩
  · right; rfl

/-- The flag-bits decoder has no panicking path (it decodes no text). -/
theorem message_flag_bits_ne_panicked (input : List Byte) :
    message_flag_bits input ≠ .panicked := by
  unfold message_flag_bits
  rcases message_header_cases input 0x42 with ⟨r1, hd, hh⟩ | hh
  · rw [hh]
    simp only [pbind]
    rcases take_cases hd.msg_size r1 with ⟨r2, v2, ht⟩ | ht
    · rw [ht]
      simp only [pbind]
      rcases take_cases 8 v2 with ⟨r3, v3, ht3⟩ | ht3
      · rw [ht3]
        simp only [pbind]
        rcases take_cases 8 r3 with ⟨r4, v4, ht4⟩ | ht4
        · rw [ht4]
          simp only [pbind]
          rcases take_cases 3 r4 with ⟨r5, v5, ht5⟩ | ht5
          · rw [ht5]; simp [pbind]
          · rw [ht5]; simp [pbind]
        · rw [ht4]; simp [pbind]
      · rw [ht3]; simp [pbind]
    · rw [ht]; simp [pbind]
  · rw [hh]; simp [pbind]

/-- Claim C7: the flag-bits decoder asserts tag B, slices a body of
exactly msg_size bytes, carves 8 + 8 + 3 bytes from it in that order, and
errs whenever the body would be shorter than 19 bytes; `ulog` runs it
exactly once, immediately after the file header, and the twelve-way
dispatch can never fire on a record whose tag byte is B. -/
theorem c7_flag_bits :
    (∀ (input rest : List Byte) (fb : MessageFlagBits),
      message_flag_bits input = .ok rest fb →
      ∃ b0 b1 : Byte, ∃ rest1 : List Byte,
        input = b0 :: b1 :: (0x42 : Byte) :: rest1 ∧
        b0.val + 256 * b1.val ≤ rest1.length ∧
        19 ≤ b0.val + 256 * b1.val ∧
        rest = List.drop (b0.val + 256 * b1.val) rest1 ∧
        fb = ⟨⟨b0.val + 256 * b1.val, 0x42⟩,
          List.take 8 (List.take (b0.val + 256 * b1.val) rest1),
          List.take 8 (List.drop 8 (List.take (b0.val + 256 * b1.val) rest1)),
          List.take 3 (List.drop 8 (List.drop 8
            (List.take (b0.val + 256 * b1.val) rest1)))⟩) ∧
    (∀ (b0 b1 : Byte) (rest1 : List Byte), b0.val + 256 * b1.val < 19 →
      message_flag_bits (b0 :: b1 :: (0x42 : Byte) :: rest1) = .err) ∧
    (∀ (input rest : List Byte) (u : Ulog), ulog input = .ok rest u →
      ∃ r1 r2, header input = .ok r1 u.header ∧
        message_flag_bits r1 = .ok r2 u.message_flag_bits) ∧
    (∀ (input rest : List Byte) (m : Message), message input = .ok rest m →
      input[2]? ≠ some (0x42 : Byte)) := by
  refine ⟨?_, ?_, ?_, ?_⟩
  · intro input rest fb h
    exact message_flag_bits_spec h
  · intro b0 b1 rest1 hlt
    cases hfb : message_flag_bits (b0 :: b1 :: (0x42 : Byte) :: rest1) with
    | ok rest fb =>
      exfalso
      obtain ⟨b0', b1', r1', heq, _, h19, _, _⟩ := message_flag_bits_spec hfb
      simp only [List.cons.injEq] at heq
      obtain ⟨rfl, rfl, -, -⟩ := heq
      omega
    | err => rfl
    | panicked => exact absurd hfb (message_flag_bits_ne_panicked _)
  · intro input rest u h
    obtain ⟨-, r1, r2, r3, hh, hf, -⟩ := ulog_ok_inv h
    exact ⟨r1, r2, hh, hf⟩
  · intro input rest m h
    obtain ⟨i, hi⟩ := message_ok_to_decoder h
    have hne : decoderOf i input ≠ .err := by rw [hi]; simp
    obtain ⟨b0, b1, r, rfl⟩ := decoderOf_shape i input hne
    intro hc
    simp only [List.getElem?_cons_succ, List.getElem?_cons_zero, Option.some.injEq] at hc
    have hall : ∀ j : Fin 12, tagOf j ≠ (0x42 : Byte) := by decide
    exact hall i hc

/-- Witness for C7: a flag-bits record declaring size 5 (< 19) errs. -/
theorem c7_flag_bits_witness : message_flag_bits [0x05, 0x00, 0x42] = .err :=
  c7_flag_bits.2.1 0x05 0x00 [] (by decide)

/-- Counterexample to C1: a file whose header and flag-bits record parse,
followed by a single trailing byte 0xFF that no record decoder accepts.
The claim says the whole decode must fail; instead `ulog` succeeds and
returns the (empty) prefix of decoded records, silently discarding the
trailing byte. -/
theorem c1_counterexample :
    message [0xFF] = .err ∧
    ulog (goodFilePrefix ++ [0xFF]) =
      .ok [] ⟨⟨0x01, 0⟩, ⟨⟨19, 0x42⟩, List.replicate 8 0x00, List.replicate 8 0x00,
        List.replicate 3 0x00⟩, []⟩ :=
  ⟨by decide, by decide⟩

/-- Claim C1 (amended): `ulog` succeeds exactly when the header and the
flag-bits record parse and the greedy record scan does not panic; the
records are the longest decodable prefix of the remaining bytes (`many0`
stops at the first record that fails), and whatever bytes follow that
prefix are silently discarded rather than failing the decode. -/
theorem c1_ulog_greedy :
    ∀ input : List Byte,
      (∀ (r1 : List Byte) (hd : Header), header input = .ok r1 hd →
        ∀ (r2 : List Byte) (fb : MessageFlagBits), message_flag_bits r1 = .ok r2 fb →
        ∀ (r3 : List Byte) (ms : List Message), many0 r2.length r2 = .ok r3 ms →
          ulog input = .ok [] ⟨hd, fb, ms⟩) ∧
      (∀ (rest : List Byte) (u : Ulog), ulog input = .ok rest u →
        rest = [] ∧ ∃ r1 r2 r3, header input = .ok r1 u.header ∧
          message_flag_bits r1 = .ok r2 u.message_flag_bits ∧
          many0 r2.length r2 = .ok r3 u.messages ∧
          (message r3 = .err ∨ r3 = [])) := by
  intro input
  constructor
  · intro r1 hd hh r2 fb hf r3 ms hm
    exact ulog_ok_of hh hf hm
  · intro rest u h
    obtain ⟨hrest, r1, r2, r3, hh, hf, hm⟩ := ulog_ok_inv h
    exact ⟨hrest, r1, r2, r3, hh, hf, hm,
      many0_stops r2.length r2 r3 u.messages (by omega) hm⟩

/-- Witness for C1 (amended) on a concrete file with one undecodable
trailing zero byte: the three stages succeed and `ulog` returns the empty
record list. -/
theorem c1_ulog_greedy_witness :
    ulog (goodFilePrefix ++ [0x00]) =
      .ok [] ⟨⟨0x01, 0⟩, ⟨⟨19, 0x42⟩, List.replicate 8 0x00, List.replicate 8 0x00,
        List.replicate 3 0x00⟩, []⟩ :=
  (c1_ulog_greedy (goodFilePrefix ++ [0x00])).1
    ([0x13, 0x00, 0x42] ++ (List.replicate 19 0x00 ++ [0x00])) ⟨0x01, 0⟩ (by decide)
    [0x00] ⟨⟨19, 0x42⟩, List.replicate 8 0x00, List.replicate 8 0x00,
      List.replicate 3 0x00⟩ (by decide)
    [0x00] [] (by decide)

/-- Counterexample to C2: a `Sync` record declaring msg_size = 5. The
claim says a successful body decoder consumes exactly msg_size + 3 = 8
bytes, but `message_sync` reads only the 3-byte header plus 1 body byte:
it succeeds leaving the last 4 input bytes, while the byte at offset
msg_size + 3 would leave none. -/
theorem c2_counterexample :
    message_sync [0x05, 0x00, 0x53, 0xAA, 0x00, 0x00, 0x00, 0x00] =
      .ok [0x00, 0x00, 0x00, 0x00] (.Sync ⟨⟨5, 0x53⟩, 0xAA⟩) ∧
    [0x00, 0x00, 0x00, 0x00] ≠
      List.drop (5 + 3) [0x05, 0x00, 0x53, 0xAA, 0x00, 0x00, 0x00, 0x00] :=
  ⟨by decide, by decide⟩

/-- Claim C2 (amended): the decoders whose layout ends in a
`take(msg_size − k)` trailing field (Format, Info, InfoMultiple,
Parameter, ParameterDefault, AddLoggedMessage, Data, Logging,
LoggingTagged, and FlagBits) consume exactly msg_size bytes of body after
the 3-byte record header whenever msg_size is at least the fixed prefix
width; Sync, Dropout and RemoveLoggedMessage instead read only
fixed-width fields, consuming 1, 2 and 2 body bytes respectively,
regardless of the declared msg_size. -/
theorem c2_consumption :
    ∀ input rest : List Byte,
      (∀ mf : MessageFormat, message_format input = .ok rest (.Format mf) →
        rest = List.drop (3 + mf.header.msg_size) input) ∧
      (∀ mi : MessageInfo, message_info input = .ok rest (.Info mi) →
        1 + mi.key_len.val ≤ mi.header.msg_size →
        rest = List.drop (3 + mi.header.msg_size) input) ∧
      (∀ mm : MessageInfoMultiple,
        message_info_multiple input = .ok rest (.InfoMultiple mm) →
        2 + mm.key_len.val ≤ mm.header.msg_size →
        rest = List.drop (3 + mm.header.msg_size) input) ∧
      (∀ mp : MessageParameter, message_parameter input = .ok rest (.Parameter mp) →
        1 + mp.key_len.val ≤ mp.header.msg_size →
        rest = List.drop (3 + mp.header.msg_size) input) ∧
      (∀ mq : MessageParameterDefault,
        message_parameter_default input = .ok rest (.ParameterDefault mq) →
        2 + mq.key_len.val ≤ mq.header.msg_size →
        rest = List.drop (3 + mq.header.msg_size) input) ∧
      (∀ ma : MessageAddLogged, message_add_logged input = .ok rest (.AddLogged ma) →
        3 ≤ ma.header.msg_size →
        rest = List.drop (3 + ma.header.msg_size) input) ∧
      (∀ mr : MessageRemoveLogged,
        message_remove_logged input = .ok rest (.RemoveLogged mr) →
        rest = List.drop 5 input) ∧
      (∀ md : MessageData, message_data input = .ok rest (.Data md) →
        2 ≤ md.header.msg_size →
        rest = List.drop (3 + md.header.msg_size) input) ∧
      (∀ ml : MessageLogging, message_logging input = .ok rest (.Logging ml) →
        9 ≤ ml.header.msg_size →
        rest = List.drop (3 + ml.header.msg_size) input) ∧
      (∀ mt : MessageLoggingTagged,
        message_logging_tagged input = .ok rest (.LoggingTagged mt) →
        11 ≤ mt.header.msg_size →
        rest = List.drop (3 + mt.header.msg_size) input) ∧
      (∀ sy : MessageSync, message_sync input = .ok rest (.Sync sy) →
        rest = List.drop 4 input) ∧
      (∀ mo : MessageDropout, message_dropout input = .ok rest (.Dropout mo) →
        rest = List.drop 5 input) ∧
      (∀ fb : MessageFlagBits, message_flag_bits input = .ok rest fb →
        rest = List.drop (3 + fb.header.msg_size) input) := by
  intro input rest
  refine ⟨?_, ?_, ?_, ?_, ?_, ?_, ?_, ?_, ?_, ?_, ?_, ?_, ?_⟩
  · intro mf h
    obtain ⟨b0, b1, r1, rfl, hlen, hval, rfl, hm⟩ := message_format_spec h
    injection hm with hm
    subst hm
    rw [show (3 : Nat) + (b0.val + 256 * b1.val) = (b0.val + 256 * b1.val) + 3 from by omega]
    rfl
  · intro mi h hle
    obtain ⟨b0, b1, kl, r1, rfl, hk, hv, hval, rfl, hm⟩ := message_info_spec h
    injection hm with hm
    subst hm
    simp only at hle
    have hb : b0.val + 256 * b1.val < 65536 := by
      have := b0.isLt; have := b1.isLt; omega
    rw [u16sub_of_le (by omega) hb, u16sub_of_le (by omega) (by omega), List.drop_drop]
    rw [show kl.val + (b0.val + 256 * b1.val - 1 - kl.val) = b0.val + 256 * b1.val - 1
      from by omega]
    rw [show (3 : Nat) + (b0.val + 256 * b1.val) = (b0.val + 256 * b1.val - 1) + 4
      from by omega]
    rfl
  · intro mm h hle
    obtain ⟨b0, b1, ic, kl, r1, rfl, hk, hv, hval, rfl, hm⟩ := message_info_multiple_spec h
    injection hm with hm
    subst hm
    simp only at hle
    have hb : b0.val + 256 * b1.val < 65536 := by
      have := b0.isLt; have := b1.isLt; omega
    rw [u16sub_of_le (by omega) hb, u16sub_of_le (by omega) (by omega), List.drop_drop]
    rw [show kl.val + (b0.val + 256 * b1.val - 2 - kl.val) = b0.val + 256 * b1.val - 2
      from by omega]
    rw [show (3 : Nat) + (b0.val + 256 * b1.val) = (b0.val + 256 * b1.val - 2) + 5
      from by omega]
    rfl
  · intro mp h hle
    obtain ⟨b0, b1, kl, r1, rfl, hk, hv, hval, rfl, hm⟩ := message_parameter_spec h
    injection hm with hm
    subst hm
    simp only at hle
    have hb : b0.val + 256 * b1.val < 65536 := by
      have := b0.isLt; have := b1.isLt; omega
    rw [u16sub_of_le (by omega) hb, u16sub_of_le (by omega) (by omega), List.drop_drop]
    rw [show kl.val + (b0.val + 256 * b1.val - 1 - kl.val) = b0.val + 256 * b1.val - 1
      from by omega]
    rw [show (3 : Nat) + (b0.val + 256 * b1.val) = (b0.val + 256 * b1.val - 1) + 4
      from by omega]
    rfl
  · intro mq h hle
    obtain ⟨b0, b1, dt, kl, r1, rfl, hk, hv, hval, rfl, hm⟩ :=
      message_parameter_default_spec h
    injection hm with hm
    subst hm
    simp only at hle
    have hb : b0.val + 256 * b1.val < 65536 := by
      have := b0.isLt; have := b1.isLt; omega
    rw [u16sub_of_le (by omega) hb, u16sub_of_le (by omega) (by omega), List.drop_drop]
    rw [show kl.val + (b0.val + 256 * b1.val - 2 - kl.val) = b0.val + 256 * b1.val - 2
      from by omega]
    rw [show (3 : Nat) + (b0.val + 256 * b1.val) = (b0.val + 256 * b1.val - 2) + 5
      from by omega]
    rfl
  · intro ma h hle
    obtain ⟨b0, b1, mi, c0, c1, r1, rfl, hn, hval, rfl, hm⟩ := message_add_logged_spec h
    injection hm with hm
    subst hm
    simp only at hle
    have hb : b0.val + 256 * b1.val < 65536 := by
      have := b0.isLt; have := b1.isLt; omega
    rw [u16sub_of_le (by omega) hb]
    rw [show (3 : Nat) + (b0.val + 256 * b1.val) = (b0.val + 256 * b1.val - 3) + 6
      from by omega]
    rfl
  · intro mr h
    obtain ⟨b0, b1, c0, c1, rfl, hm⟩ := message_remove_logged_spec h
    rfl
  · intro md h hle
    obtain ⟨b0, b1, c0, c1, r1, rfl, hlen, rfl, hm⟩ := message_data_spec h
    injection hm with hm
    subst hm
    simp only at hle
    have hb : b0.val + 256 * b1.val < 65536 := by
      have := b0.isLt; have := b1.isLt; omega
    rw [u16sub_of_le (by omega) hb]
    rw [show (3 : Nat) + (b0.val + 256 * b1.val) = (b0.val + 256 * b1.val - 2) + 5
      from by omega]
    rfl
  · intro ml h hle
    obtain ⟨b0, b1, lv, t0, t1, t2, t3, t4, t5, t6, t7, r1, rfl, hm', hval, rfl, hm⟩ :=
      message_logging_spec h
    injection hm with hm
    subst hm
    simp only at hle
    have hb : b0.val + 256 * b1.val < 65536 := by
      have := b0.isLt; have := b1.isLt; omega
    rw [u16sub_of_le (by omega) hb]
    rw [show (3 : Nat) + (b0.val + 256 * b1.val) = (b0.val + 256 * b1.val - 9) + 12
      from by omega]
    rfl
  · intro mt h hle
    obtain ⟨b0, b1, lv, g0, g1, t0, t1, t2, t3, t4, t5, t6, t7, r1, rfl, hm', hval,
      rfl, hm⟩ := message_logging_tagged_spec h
    injection hm with hm
    subst hm
    simp only at hle
    have hb : b0.val + 256 * b1.val < 65536 := by
      have := b0.isLt; have := b1.isLt; omega
    rw [u16sub_of_le (by omega) hb]
    rw [show (3 : Nat) + (b0.val + 256 * b1.val) = (b0.val + 256 * b1.val - 11) + 14
      from by omega]
    rfl
  · intro sy h
    obtain ⟨b0, b1, sm, rfl, hm⟩ := message_sync_spec h
    rfl
  · intro mo h
    obtain ⟨b0, b1, c0, c1, rfl, hm⟩ := message_dropout_spec h
    rfl
  · intro fb h
    obtain ⟨b0, b1, r1, rfl, hlen, h19, rfl, rfl⟩ := message_flag_bits_spec h
    rw [show (3 : Nat) + (b0.val + 256 * b1.val) = (b0.val + 256 * b1.val) + 3 from by omega]
    rfl

attribute [local semireducible] u16sub in
/-- Witness for C2 (amended) on a concrete Data record of declared size 6
with a 4-byte payload: the decoder leaves exactly the bytes after offset
3 + 6 = 9, here none. -/
theorem c2_consumption_witness :
    ([] : List Byte) =
      List.drop (3 + 6) [0x06, 0x00, 0x44, 0x07, 0x00, 0xAB, 0xCD, 0xEF, 0x12] :=
  (c2_consumption [0x06, 0x00, 0x44, 0x07, 0x00, 0xAB, 0xCD, 0xEF, 0x12]
      []).2.2.2.2.2.2.2.1
    ⟨⟨6, 0x44⟩, 7, [0xAB, 0xCD, 0xEF, 0x12]⟩ (by decide) (by decide)

/-- Claim C3 is contradicted by the code: on a Format record whose 1-byte
body 0xFF is not valid UTF-8, the body decoder panics (the
`String::from_utf8(..).unwrap()` in `message_format`) instead of
returning an error value, and the panic propagates through the dispatch
and the whole-file decode. -/
theorem c3_panic_eval :
    validUtf8 [0xFF] = false ∧
    message_format [0x01, 0x00, 0x46, 0xFF] = .panicked ∧
    message [0x01, 0x00, 0x46, 0xFF] = .panicked ∧
    ulog (goodFilePrefix ++ [0x01, 0x00, 0x46, 0xFF]) = .panicked :=
  ⟨by decide, by decide, by decide, by decide⟩

attribute [local semireducible] u16sub in
/-- Claim C4 is contradicted by the code: a Logging record whose text
byte 0xFF is not valid UTF-8 makes `message_logging` panic (unwrap of
`String::from_utf8`) rather than return an InvalidText-style decode
error. -/
theorem c4_panic_eval :
    validUtf8 [0xFF] ≠ true ∧
    message_logging [0x0A, 0x00, 0x4C, 0x00, 0x00, 0x00, 0x00, 0x00, 0x00, 0x00,
      0x00, 0x00, 0xFF] = .panicked ∧
    message [0x0A, 0x00, 0x4C, 0x00, 0x00, 0x00, 0x00, 0x00, 0x00, 0x00,
      0x00, 0x00, 0xFF] = .panicked :=
  ⟨by decide, by decide, by decide⟩

/-- Claim C5 is contradicted by the code: an Info record declaring
msg_size = 0, smaller than its fixed prefix width 1 + key_len = 1, does
not fail with an InvalidLength/TruncatedInput error. The wrapping
`msg_size - 1 - key_len` computation underflows to 65535 and, given
65535 trailing bytes, the decoder succeeds, consuming them all as a bogus
value. -/
theorem c5_underflow_eval :
    message_info ([0x00, 0x00, 0x49, 0x00] ++ List.replicate 65535 0x00) =
      .ok [] (.Info ⟨⟨0, 0x49⟩, 0x00, [], List.replicate 65535 0x00⟩) := by
  have hsub : u16sub (u16sub ((0x00 : Byte).val + 256 * (0x00 : Byte).val) 1)
      (0x00 : Byte).val = 65535 := by
    unfold u16sub
    rfl
  have hdrop : List.drop 65535 (List.replicate 65535 (0x00 : Byte)) = [] := by
    have h := List.drop_length (List.replicate 65535 (0x00 : Byte))
    rwa [List.length_replicate] at h
  have htake : List.take 65535 (List.replicate 65535 (0x00 : Byte)) =
      List.replicate 65535 0x00 := by
    have h := List.take_length (List.replicate 65535 (0x00 : Byte))
    rwa [List.length_replicate] at h
  show message_info ((0x00 : Byte) :: 0x00 :: 0x49 :: 0x00 ::
    List.replicate 65535 0x00) = _
  unfold message_info
  simp only [pbind_ok, message_header_ok, u8_ok, take_ok, ite_ok, PResult.ok.injEq]
  refine ⟨(0x00 : Byte) :: List.replicate 65535 0x00,
    ⟨(0x00 : Byte).val + 256 * (0x00 : Byte).val, 0x49⟩,
    ⟨0x00, 0x00, rfl, rfl⟩,
    List.replicate 65535 0x00, 0x00, rfl,
    List.replicate 65535 0x00, [],
    ⟨Nat.zero_le _, (List.drop_zero _).symm, (List.take_zero _).symm⟩,
    [], List.replicate 65535 0x00,
    ⟨?_, ?_, ?_⟩, rfl, rfl, rfl⟩
  · show u16sub (u16sub ((0x00 : Byte).val + 256 * (0x00 : Byte).val) 1)
      (0x00 : Byte).val ≤ (List.replicate 65535 (0x00 : Byte)).length
    rw [hsub, List.length_replicate]
  · show ([] : List Byte) = List.drop (u16sub (u16sub ((0x00 : Byte).val +
      256 * (0x00 : Byte).val) 1) (0x00 : Byte).val) (List.replicate 65535 0x00)
    rw [hsub, hdrop]
  · show List.replicate 65535 (0x00 : Byte) = List.take (u16sub (u16sub
      ((0x00 : Byte).val + 256 * (0x00 : Byte).val) 1) (0x00 : Byte).val)
      (List.replicate 65535 0x00)
    rw [hsub, htake]

end Ulogrs
